import Mathlib

/-!
Shallow embedding of kombu's MongoDB transport channel
(`src/kombu/transport/mongodb.py`).

The transport stores point-to-point messages in a plain `messages`
collection, broadcast (fanout) messages in a capped `messages.broadcast`
collection read through per-queue tailing cursors, and durable
exchange-to-queue bindings in `messages.routing`.  The store client
(pymongo) is external: its primitives — `findandmodify` with
sort-by-`_id`-ascending and `remove=True`, cursor `count`/`skip`/`rewind`/
`next`, `insert`, `remove`, `update(..., upsert=True)`, `ensure_index`,
`create_collection(capped=True)` — are embedded here with their documented
semantics.  Serialization (anyjson `dumps`/`loads`) is an external
collaborator applied uniformly to payloads and is modelled as the identity
on an opaque payload type.
-/

namespace Mongodb

/-- Message payload type.  Payloads are opaque serialized values. -/
abbrev Msg := String

/-- anyjson `dumps` — external serializer, modelled as the identity. -/
def dumps (m : Msg) : Msg := m

/-- anyjson `loads` — external deserializer, modelled as the identity. -/
def loads (m : Msg) : Msg := m

/-- A document of the plain `messages` collection: its mongo `_id`
(monotonically increasing at insertion time, modelled by a counter),
the `queue` field and the serialized `payload` field. -/
structure QDoc where
  _id : Nat
  queue : String
  payload : Msg
  deriving DecidableEq

/-- The `messages` collection: documents in insertion order together with
the next `_id` the store will assign (ObjectIds grow monotonically). -/
structure MessagesCol where
  docs : List QDoc
  nextId : Nat
  deriving DecidableEq

/-- Channel._put: `self.client.messages.insert(payload=dumps(message), queue=queue)`.
The store appends the document and assigns the next monotone `_id`. -/
def put (c : MessagesCol) (queue : String) (message : Msg) : MessagesCol :=
  { docs := c.docs ++ [⟨c.nextId, queue, dumps message⟩], nextId := c.nextId + 1 }

/-- The document with the smallest `_id` in a list (mongo's
`sort=ascending _id, take first`), computed by a fold. -/
def minById (l : List QDoc) : Option QDoc :=
  l.foldl
    (fun acc d =>
      match acc with
      | none => some d
      | some m => if d._id < m._id then some d else some m)
    none

/-- Remove the first occurrence of a document from the collection list
(the store deletes exactly the document `findandmodify` located). -/
def removeFirst : List QDoc → QDoc → List QDoc
  | [], _ => []
  | x :: xs, d => if x = d then xs else x :: removeFirst xs d

/-- The store's `findandmodify` on `messages` as the channel invokes it:
`query = queue, sort = _id ascending, remove = True`.  It atomically
locates the matching document with the smallest `_id`, removes it and
returns it; with no match it returns no value. -/
def findandmodify (c : MessagesCol) (queue : String) : Option QDoc × MessagesCol :=
  match minById (c.docs.filter (fun d => d.queue == queue)) with
  | none => (none, c)
  | some d => (some d, { c with docs := removeFirst c.docs d })

/-- Channel._get, point-to-point branch: run `findandmodify` and return
`loads` of the payload; `none` is the Empty outcome (raised either as the
`No matching object found` OperationFailure or as a `None` value). -/
def pGet (c : MessagesCol) (queue : String) : Option Msg × MessagesCol :=
  match findandmodify c queue with
  | (none, c2) => (none, c2)
  | (some d, c2) => (some (loads d.payload), c2)

/-- Channel._size, point-to-point branch:
`self.client.messages.find(queue=queue).count()`. -/
def pSize (c : MessagesCol) (queue : String) : Nat :=
  (c.docs.filter (fun d => d.queue == queue)).length

/-- Channel._purge, point-to-point branch: capture `_size`, then
`self.client.messages.remove(queue=queue)` (removes every matching
document), and return the captured size. -/
def pPurge (c : MessagesCol) (queue : String) : Nat × MessagesCol :=
  (pSize c queue, { c with docs := c.docs.filter (fun d => !(d.queue == queue)) })

/-- Fold of Channel._put over a list of messages, in order. -/
def putAll (c : MessagesCol) (queue : String) (ms : List Msg) : MessagesCol :=
  ms.foldl (fun c2 m => put c2 queue m) c

/-- Repeated Channel._get with the given fuel, collecting the returned
messages until the Empty outcome (or the fuel runs out). -/
def drainN : Nat → MessagesCol → String → List Msg × MessagesCol
  | 0, c, _ => ([], c)
  | n + 1, c, q =>
    match pGet c q with
    | (none, c2) => ([], c2)
    | (some m, c2) =>
      let r := drainN n c2 q
      (m :: r.1, r.2)

/-- The documents `putAll` appends for queue `q` starting at id `i`. -/
def tagged (q : String) : Nat → List Msg → List QDoc
  | _, [] => []
  | i, m :: ms => ⟨i, q, dumps m⟩ :: tagged q (i + 1) ms

lemma putAll_eq (q : String) (ms : List Msg) :
    ∀ c : MessagesCol,
      putAll c q ms = ⟨c.docs ++ tagged q c.nextId ms, c.nextId + ms.length⟩ := by
  induction ms with
  | nil => intro c; simp [putAll, tagged]
  | cons m ms ih =>
    intro c
    have h1 : putAll c q (m :: ms) = putAll (put c q m) q ms := rfl
    rw [h1, ih]
    simp [put, tagged, List.append_assoc]
    omega

lemma tagged_queue (q : String) (ms : List Msg) :
    ∀ i : Nat, ∀ d ∈ tagged q i ms, d.queue = q := by
  induction ms with
  | nil => intro i d hd; simp [tagged] at hd
  | cons m ms ih =>
    intro i d hd
    simp only [tagged, List.mem_cons] at hd
    rcases hd with h | h
    · rw [h]
    · exact ih (i + 1) d h

lemma tagged_id_ge (q : String) (ms : List Msg) :
    ∀ i : Nat, ∀ d ∈ tagged q i ms, i ≤ d._id := by
  induction ms with
  | nil => intro i d hd; simp [tagged] at hd
  | cons m ms ih =>
    intro i d hd
    simp only [tagged, List.mem_cons] at hd
    rcases hd with h | h
    · rw [h]
    · exact Nat.le_of_succ_le (ih (i + 1) d h)

lemma filter_base_tagged (q : String) (base : List QDoc) (i : Nat) (ms : List Msg)
    (hb : ∀ d ∈ base, d.queue ≠ q) :
    (base ++ tagged q i ms).filter (fun d => d.queue == q) = tagged q i ms := by
  rw [List.filter_append]
  have h1 : base.filter (fun d => d.queue == q) = [] := by
    apply List.filter_eq_nil_iff.mpr
    intro d hd
    simpa using hb d hd
  have h2 : (tagged q i ms).filter (fun d => d.queue == q) = tagged q i ms := by
    apply List.filter_eq_self.mpr
    intro d hd
    simpa using tagged_queue q ms i d hd
  rw [h1, h2, List.nil_append]

lemma minById_foldl_fixed (m : QDoc) (t : List QDoc) (h : ∀ x ∈ t, ¬ x._id < m._id) :
    t.foldl
      (fun acc d =>
        match acc with
        | none => some d
        | some m2 => if d._id < m2._id then some d else some m2)
      (some m) = some m := by
  induction t generalizing m with
  | nil => rfl
  | cons x xs ih =>
    have hx : ¬ x._id < m._id := h x (by simp)
    simp only [List.foldl_cons, if_neg hx]
    exact ih m (fun y hy => h y (by simp [hy]))

lemma minById_cons (d : QDoc) (t : List QDoc) (h : ∀ x ∈ t, ¬ x._id < d._id) :
    minById (d :: t) = some d := by
  unfold minById
  simp only [List.foldl_cons]
  exact minById_foldl_fixed d t h

lemma removeFirst_append (d : QDoc) (rest : List QDoc) :
    ∀ base : List QDoc, (∀ x ∈ base, x ≠ d) →
      removeFirst (base ++ d :: rest) d = base ++ rest := by
  intro base
  induction base with
  | nil => intro _; simp [removeFirst]
  | cons x xs ih =>
    intro h
    have hx : x ≠ d := h x (by simp)
    simp only [List.cons_append, removeFirst, if_neg hx, List.append_eq]
    rw [ih (fun y hy => h y (by simp [hy]))]

lemma drainN_tagged (q : String) (ms : List Msg) :
    ∀ (base : List QDoc) (i nid : Nat), (∀ d ∈ base, d.queue ≠ q) →
      drainN ms.length ⟨base ++ tagged q i ms, nid⟩ q = (ms, ⟨base, nid⟩) := by
  induction ms with
  | nil => intro base i nid _; simp [drainN, tagged]
  | cons m ms ih =>
    intro base i nid hb
    have hfilter :
        (base ++ tagged q i (m :: ms)).filter (fun d => d.queue == q)
          = tagged q i (m :: ms) :=
      filter_base_tagged q base i (m :: ms) hb
    have hmin :
        minById ((base ++ tagged q i (m :: ms)).filter (fun d => d.queue == q))
          = some ⟨i, q, dumps m⟩ := by
      rw [hfilter]
      show minById (⟨i, q, dumps m⟩ :: tagged q (i + 1) ms) = _
      apply minById_cons
      intro x hx
      have := tagged_id_ge q ms (i + 1) x hx
      simp only [not_lt]
      omega
    have hne : ∀ x ∈ base, x ≠ (⟨i, q, dumps m⟩ : QDoc) := by
      intro x hx hcontra
      exact hb x hx (by rw [hcontra])
    have hremove :
        removeFirst (base ++ tagged q i (m :: ms)) ⟨i, q, dumps m⟩
          = base ++ tagged q (i + 1) ms := by
      show removeFirst (base ++ ⟨i, q, dumps m⟩ :: tagged q (i + 1) ms) _ = _
      exact removeFirst_append _ _ base hne
    have hget :
        pGet ⟨base ++ tagged q i (m :: ms), nid⟩ q
          = (some m, ⟨base ++ tagged q (i + 1) ms, nid⟩) := by
      simp only [pGet, findandmodify, hmin, hremove]
      rfl
    show drainN (ms.length + 1) ⟨base ++ tagged q i (m :: ms), nid⟩ q = _
    simp only [drainN, hget, ih base (i + 1) nid hb]

lemma pGet_empty (c : MessagesCol) (q : String)
    (h : ∀ d ∈ c.docs, d.queue ≠ q) : pGet c q = (none, c) := by
  have hfilter : c.docs.filter (fun d => d.queue == q) = [] := by
    apply List.filter_eq_nil_iff.mpr
    intro d hd
    simpa using h d hd
  simp [pGet, findandmodify, hfilter, minById]

/-- C1: enqueuing `m1..mn` into a point-to-point queue with no interleaved
dequeues and then repeatedly dequeuing returns exactly `m1..mn` in that
order (oldest `_id` first, each exactly once), and the dequeue after the
last message signals empty. -/
theorem c1_point_to_point_fifo (c : MessagesCol) (q : String) (ms : List Msg)
    (hq : ∀ d ∈ c.docs, d.queue ≠ q) :
    (drainN ms.length (putAll c q ms) q).1 = ms ∧
    (pGet (drainN ms.length (putAll c q ms) q).2 q).1 = none := by
  rw [putAll_eq q ms c]
  rw [drainN_tagged q ms c.docs c.nextId (c.nextId + ms.length) hq]
  refine ⟨rfl, ?_⟩
  rw [pGet_empty ⟨c.docs, c.nextId + ms.length⟩ q hq]

/-- Witness for C1 at the spec's example: enqueue "A" then "B" into
`orders`, dequeue yields "A" then "B" then empty. -/
theorem c1_point_to_point_fifo_witness :
    (drainN 2 (putAll ⟨[], 0⟩ "orders" ["A", "B"]) "orders").1 = ["A", "B"] ∧
    (pGet (drainN 2 (putAll ⟨[], 0⟩ "orders" ["A", "B"]) "orders").2 "orders").1 = none :=
  c1_point_to_point_fifo ⟨[], 0⟩ "orders" ["A", "B"] (by simp)

/-- A document of the capped `messages.broadcast` collection: the `queue`
field holds the exchange name, `payload` the serialized message.  The
collection is insertion-ordered; claims here never reach the capped byte
bound, so eviction does not occur on the runs considered. -/
structure BDoc where
  queue : String
  payload : Msg
  deriving DecidableEq

/-- The capped broadcast collection in natural (insertion) order. -/
abbrev BcastCol := List BDoc

/-- Channel._put_fanout:
`self.client.messages.broadcast.insert(payload=dumps(message), queue=exchange)`. -/
def putFanout (b : BcastCol) (exchange : String) (message : Msg) : BcastCol :=
  b ++ [⟨exchange, dumps message⟩]

/-- Fold of Channel._put_fanout over a list of messages, in order. -/
def putFanoutAll (b : BcastCol) (exchange : String) (ms : List Msg) : BcastCol :=
  ms.foldl (fun b2 m => putFanout b2 exchange m) b

/-- A pymongo tailing cursor over `messages.broadcast` as `_ensure_cursor`
opens it: filtered by `queue` (the exchange), sorted by natural order,
tailable.  `pos` is its position in the sequence of matching documents
(the skip offset plus the number of documents already iterated). -/
structure Cursor where
  queue : String
  pos : Nat
  deriving DecidableEq

/-- pymongo `Cursor.count()`: the number of documents matching the query,
ignoring skip and limit (the default `with_limit_and_skip=False`). -/
def Cursor.count (cur : Cursor) (b : BcastCol) : Nat :=
  (b.filter (fun d => d.queue == cur.queue)).length

/-- pymongo `Cursor.skip(n)`: position the cursor at offset `n` (legal on a
cursor that has not begun iterating, e.g. fresh or just rewound). -/
def Cursor.skip (cur : Cursor) (n : Nat) : Cursor :=
  { cur with pos := n }

/-- pymongo `Cursor.rewind()`: reset the cursor to the start. -/
def Cursor.rewind (cur : Cursor) : Cursor :=
  { cur with pos := 0 }

/-- pymongo `next(cursor)` on a tailable cursor: return the document at the
current position and advance, or signal exhaustion (StopIteration) leaving
the position where it is so later appends can still be read. -/
def Cursor.next (cur : Cursor) (b : BcastCol) : Option BDoc × Cursor :=
  match (b.filter (fun d => d.queue == cur.queue))[cur.pos]? with
  | some d => (some d, { cur with pos := cur.pos + 1 })
  | none => (none, cur)

/-- Lookup in a python dict modelled as an association list (newest
binding first). -/
def dlookup {α : Type} : List (String × α) → String → Option α
  | [], _ => none
  | (k, v) :: rest, key => if k = key then some v else dlookup rest key

/-- Item assignment `d[key] = v` on a python dict. -/
def dset {α : Type} (d : List (String × α)) (key : String) (v : α) :
    List (String × α) :=
  (key, v) :: d

/-- `d.pop(key, None)` on a python dict (dropping every stale binding). -/
def dpop {α : Type} (d : List (String × α)) (key : String) : List (String × α) :=
  d.filter (fun kv => !(kv.1 == key))

/-- Membership test `key in d` on a python dict. -/
def dmem {α : Type} (d : List (String × α)) (key : String) : Bool :=
  (dlookup d key).isSome

/-- Per-instance channel state, as set up in Channel.__init__:
`self._queue_cursors` and `self._queue_readcounts` are fresh dicts on every
instance.  The `_fanout_queues` dict is deliberately NOT here: in the
source it is a class attribute (see `TwoChannels` below) and is passed to
the operations explicitly. -/
structure ChanInst where
  queue_cursors : List (String × Cursor)
  queue_readcounts : List (String × Nat)
  deriving DecidableEq

/-- Channel._ensure_cursor: touch `self.client`, read the exchange from
`_fanout_queues[queue]`, and if no cursor exists for `queue` yet, open a
tailing cursor filtered by the exchange, count the existing matching
documents, fast-forward past them with `skip(count)` and record
`_queue_readcounts[queue] = count`.  The source indexes `_fanout_queues`
unconditionally (KeyError if absent); every call site has the key present,
so the missing-key branch leaves the state unchanged. -/
def ensureCursor (fq : List (String × String)) (b : BcastCol) (ch : ChanInst)
    (queue : String) : ChanInst :=
  match dlookup fq queue with
  | none => ch
  | some exchange =>
    if dmem ch.queue_cursors queue then ch
    else
      let cur : Cursor := ⟨exchange, 0⟩
      let count := cur.count b
      { queue_cursors := dset ch.queue_cursors queue (cur.skip count),
        queue_readcounts := dset ch.queue_readcounts queue count }

/-- Channel._get, fanout branch: ensure the cursor, `next` it, increment
`_queue_readcounts[queue]` and return `loads` of the payload; on
StopIteration signal the Empty outcome (`none`) with the read count and
cursor untouched. -/
def getFanout (fq : List (String × String)) (b : BcastCol) (ch : ChanInst)
    (queue : String) : Option Msg × ChanInst :=
  let ch2 := ensureCursor fq b ch queue
  match dlookup ch2.queue_cursors queue with
  | none => (none, ch2)
  | some cur =>
    match cur.next b with
    | (none, _) => (none, ch2)
    | (some d, cur2) =>
      (some (loads d.payload),
       { queue_cursors := dset ch2.queue_cursors queue cur2,
         queue_readcounts :=
           dset ch2.queue_readcounts queue
             ((dlookup ch2.queue_readcounts queue).getD 0 + 1) })

/-- Channel._size, fanout branch: ensure the cursor, then
`cursor.count() - self._queue_readcounts[queue]` (python int arithmetic,
hence the Int result). -/
def sizeFanout (fq : List (String × String)) (b : BcastCol) (ch : ChanInst)
    (queue : String) : Int × ChanInst :=
  let ch2 := ensureCursor fq b ch queue
  match dlookup ch2.queue_cursors queue with
  | none => (0, ch2)
  | some cur =>
    ((cur.count b : Int) - ((dlookup ch2.queue_readcounts queue).getD 0 : Int), ch2)

/-- Channel._purge, fanout branch: capture `_size`, then rewind the cursor
and reposition it with `skip(cursor.count())`; return the captured size.
`_queue_readcounts` is left untouched by the source. -/
def purgeFanout (fq : List (String × String)) (b : BcastCol) (ch : ChanInst)
    (queue : String) : Int × ChanInst :=
  let r := sizeFanout fq b ch queue
  let ch2 := r.2
  match dlookup ch2.queue_cursors queue with
  | none => (r.1, ch2)
  | some cur =>
    let cur2 := (cur.rewind).skip (cur.count b)
    (r.1, { ch2 with queue_cursors := dset ch2.queue_cursors queue cur2 })

/-- Repeated Channel._get (fanout branch) with the given fuel, collecting
the returned messages until the Empty outcome. -/
def drainFanoutN :
    Nat → List (String × String) → BcastCol → ChanInst → String →
      List Msg × ChanInst
  | 0, _, _, ch, _ => ([], ch)
  | n + 1, fq, b, ch, q =>
    match getFanout fq b ch q with
    | (none, ch2) => ([], ch2)
    | (some m, ch2) =>
      let r := drainFanoutN n fq b ch2 q
      (m :: r.1, r.2)

/-- A document of the `messages.routing` collection. -/
structure RoutingDoc where
  exchange : String
  queue : String
  routing_key : String
  pattern : String
  deriving DecidableEq

/-- The store's `update(meta, meta, upsert=True)` on `messages.routing`:
replace the first document matching the full 4-tuple with the identical
document (a no-op on the collection) or, with no match, insert it. -/
def routingUpsert (routing : List RoutingDoc) (meta : RoutingDoc) :
    List RoutingDoc :=
  if meta ∈ routing then routing else routing ++ [meta]

/-- Channel._queue_bind: if the exchange type is fanout, record
`_fanout_queues[queue] = exchange` and ensure the cursor; then upsert the
routing document.  Returns the updated fanout registry, routing collection
and instance state. -/
def queueBind (isFanout : Bool) (fq : List (String × String)) (b : BcastCol)
    (routing : List RoutingDoc) (ch : ChanInst)
    (exchange routing_key pat queue : String) :
    List (String × String) × List RoutingDoc × ChanInst :=
  let fq2 := if isFanout then dset fq queue exchange else fq
  let ch2 := if isFanout then ensureCursor fq2 b ch queue else ch
  (fq2, routingUpsert routing ⟨exchange, queue, routing_key, pat⟩, ch2)

/-- Channel.get_table: the union of the channel-local table (a frozenset of
`(routing_key, pattern, queue)` triples kept by the surrounding framework)
and the matching durable routing documents projected to the same triples,
as a set (frozensets deduplicate). -/
def getTable (localRoutes : List (String × String × String))
    (routing : List RoutingDoc) (exchange : String) :
    Finset (String × String × String) :=
  localRoutes.toFinset ∪
    ((routing.filter (fun r => r.exchange == exchange)).map
      (fun r => (r.routing_key, r.pattern, r.queue))).toFinset

/-- Channel.queue_delete: remove every routing document for the queue,
delegate to the base deletion (external), and if the queue is a fanout
queue, pop and close its cursor and pop it from `_fanout_queues`. -/
def queueDelete (fq : List (String × String)) (routing : List RoutingDoc)
    (ch : ChanInst) (queue : String) :
    List (String × String) × List RoutingDoc × ChanInst :=
  let routing2 := routing.filter (fun r => !(r.queue == queue))
  if dmem fq queue then
    (dpop fq queue, routing2,
     { queue_cursors := dpop ch.queue_cursors queue,
       queue_readcounts := ch.queue_readcounts })
  else (fq, routing2, ch)

lemma dlookup_dset_same {α : Type} (d : List (String × α)) (k : String) (v : α) :
    dlookup (dset d k v) k = some v := by
  simp [dset, dlookup]

lemma dlookup_dset_ne {α : Type} (d : List (String × α)) (k k2 : String) (v : α)
    (h : k ≠ k2) : dlookup (dset d k v) k2 = dlookup d k2 := by
  simp [dset, dlookup, h]

lemma dmem_dset_ne {α : Type} (d : List (String × α)) (k k2 : String) (v : α)
    (h : k ≠ k2) : dmem (dset d k v) k2 = dmem d k2 := by
  simp [dmem, dlookup_dset_ne d k k2 v h]

lemma ensureCursor_of_mem (fq : List (String × String)) (b : BcastCol)
    (ch : ChanInst) (q e : String) (h1 : dlookup fq q = some e)
    (h2 : dmem ch.queue_cursors q = true) : ensureCursor fq b ch q = ch := by
  simp [ensureCursor, h1, h2]

lemma ensureCursor_create (fq : List (String × String)) (b : BcastCol)
    (ch : ChanInst) (q e : String) (h1 : dlookup fq q = some e)
    (h2 : dmem ch.queue_cursors q = false) :
    ensureCursor fq b ch q =
      { queue_cursors :=
          dset ch.queue_cursors q ⟨e, (b.filter (fun d => d.queue == e)).length⟩,
        queue_readcounts :=
          dset ch.queue_readcounts q (b.filter (fun d => d.queue == e)).length } := by
  simp [ensureCursor, h1, h2, Cursor.skip, Cursor.count]

lemma ensureCursor_frame (fq : List (String × String)) (b : BcastCol)
    (ch : ChanInst) (q k : String) (h : k ≠ q) :
    dlookup (ensureCursor fq b ch q).queue_cursors k = dlookup ch.queue_cursors k ∧
    dlookup (ensureCursor fq b ch q).queue_readcounts k
        = dlookup ch.queue_readcounts k := by
  unfold ensureCursor
  cases hfq : dlookup fq q with
  | none => exact ⟨rfl, rfl⟩
  | some e =>
    by_cases hm : dmem ch.queue_cursors q
    · simp [hm]
    · simp only [hm, Bool.false_eq_true, if_false]
      exact ⟨dlookup_dset_ne _ q k _ (Ne.symm h), dlookup_dset_ne _ q k _ (Ne.symm h)⟩

lemma cursor_next_none (cur : Cursor) (b : BcastCol)
    (h : (b.filter (fun d => d.queue == cur.queue))[cur.pos]? = none) :
    cur.next b = (none, cur) := by
  simp [Cursor.next, h]

lemma cursor_next_some (cur : Cursor) (b : BcastCol) (d : BDoc)
    (h : (b.filter (fun d => d.queue == cur.queue))[cur.pos]? = some d) :
    cur.next b = (some d, ⟨cur.queue, cur.pos + 1⟩) := by
  simp [Cursor.next, h]

lemma getFanout_frame (fq : List (String × String)) (b : BcastCol)
    (ch : ChanInst) (q k : String) (h : k ≠ q) :
    dlookup (getFanout fq b ch q).2.queue_cursors k = dlookup ch.queue_cursors k ∧
    dlookup (getFanout fq b ch q).2.queue_readcounts k
        = dlookup ch.queue_readcounts k := by
  obtain ⟨hc, hr⟩ := ensureCursor_frame fq b ch q k h
  unfold getFanout
  cases hcur : dlookup (ensureCursor fq b ch q).queue_cursors q with
  | none => simpa [hcur] using ⟨hc, hr⟩
  | some cur =>
    cases hget : (b.filter (fun d => d.queue == cur.queue))[cur.pos]? with
    | none => simpa [hcur, cursor_next_none cur b hget] using ⟨hc, hr⟩
    | some d =>
      simp only [hcur, cursor_next_some cur b d hget]
      constructor
      · rw [dlookup_dset_ne _ q k _ (Ne.symm h)]; exact hc
      · rw [dlookup_dset_ne _ q k _ (Ne.symm h)]; exact hr

lemma drop_eq_cons_getElem {α : Type} :
    ∀ (l : List α) (n : Nat) (x : α) (xs : List α),
      l.drop n = x :: xs → l[n]? = some x ∧ l.drop (n + 1) = xs
  | [], n, _, _, h => by simp at h
  | a :: t, 0, x, xs, h => by
    simp only [List.drop_zero] at h
    cases h
    simp
  | a :: t, n + 1, x, xs, h => by
    have := drop_eq_cons_getElem t n x xs (by simpa using h)
    simpa using this

lemma getElem?_none_of_drop_nil {α : Type} :
    ∀ (l : List α) (n : Nat), l.drop n = [] → l[n]? = none
  | [], _, _ => by simp
  | _ :: _, 0, h => by simp at h
  | _ :: t, n + 1, h => by simpa using getElem?_none_of_drop_nil t n (by simpa using h)

lemma putFanoutAll_eq (e : String) (ms : List Msg) :
    ∀ b : BcastCol,
      putFanoutAll b e ms = b ++ ms.map (fun m => (⟨e, dumps m⟩ : BDoc)) := by
  induction ms with
  | nil => intro b; simp [putFanoutAll]
  | cons m ms ih =>
    intro b
    show putFanoutAll (putFanout b e m) e ms = _
    rw [ih]
    simp [putFanout, List.append_assoc]

lemma filter_putFanoutAll (b : BcastCol) (e : String) (ms : List Msg) :
    (putFanoutAll b e ms).filter (fun d => d.queue == e)
      = b.filter (fun d => d.queue == e)
          ++ ms.map (fun m => (⟨e, dumps m⟩ : BDoc)) := by
  rw [putFanoutAll_eq, List.filter_append]
  congr 1
  apply List.filter_eq_self.mpr
  intro d hd
  simp only [List.mem_map] at hd
  obtain ⟨m, _, rfl⟩ := hd
  simp

lemma drainFanoutN_spec (fq : List (String × String)) (B : BcastCol)
    (e q : String) (ps : List Msg) :
    ∀ (ch : ChanInst) (n : Nat),
      dlookup fq q = some e →
      dlookup ch.queue_cursors q = some ⟨e, n⟩ →
      (B.filter (fun d => d.queue == e)).drop n
          = ps.map (fun m => (⟨e, dumps m⟩ : BDoc)) →
      (drainFanoutN ps.length fq B ch q).1 = ps ∧
      dlookup (drainFanoutN ps.length fq B ch q).2.queue_cursors q
          = some ⟨e, n + ps.length⟩ ∧
      (getFanout fq B (drainFanoutN ps.length fq B ch q).2 q).1 = none ∧
      (∀ k, k ≠ q →
        dlookup (drainFanoutN ps.length fq B ch q).2.queue_cursors k
            = dlookup ch.queue_cursors k ∧
        dlookup (drainFanoutN ps.length fq B ch q).2.queue_readcounts k
            = dlookup ch.queue_readcounts k) := by
  induction ps with
  | nil =>
    intro ch n hfq hcur hdrop
    have hens := ensureCursor_of_mem fq B ch q e hfq (by simp [dmem, hcur])
    have hnone : (B.filter (fun d => d.queue == e))[n]? = none :=
      getElem?_none_of_drop_nil _ n hdrop
    have hget : (getFanout fq B ch q).1 = none := by
      simp only [getFanout, hens, hcur]
      rw [cursor_next_none ⟨e, n⟩ B hnone]
    exact ⟨rfl, by simpa using hcur, hget, fun k _ => ⟨rfl, rfl⟩⟩
  | cons m ps ih =>
    intro ch n hfq hcur hdrop
    have hens := ensureCursor_of_mem fq B ch q e hfq (by simp [dmem, hcur])
    obtain ⟨hget1, hdrop1⟩ := drop_eq_cons_getElem _ n _ _ hdrop
    have hnext : Cursor.next ⟨e, n⟩ B = (some ⟨e, dumps m⟩, ⟨e, n + 1⟩) :=
      cursor_next_some ⟨e, n⟩ B ⟨e, dumps m⟩ hget1
    have hstep : getFanout fq B ch q =
        (some m,
         { queue_cursors := dset ch.queue_cursors q ⟨e, n + 1⟩,
           queue_readcounts :=
             dset ch.queue_readcounts q
               ((dlookup ch.queue_readcounts q).getD 0 + 1) }) := by
      simp [getFanout, hens, hcur, hnext, loads, dumps]
    have hcur2 :
        dlookup (dset ch.queue_cursors q (⟨e, n + 1⟩ : Cursor)) q
          = some ⟨e, n + 1⟩ := dlookup_dset_same _ q _
    obtain ⟨ih1, ih2, ih3, ih4⟩ :=
      ih { queue_cursors := dset ch.queue_cursors q ⟨e, n + 1⟩,
           queue_readcounts :=
             dset ch.queue_readcounts q
               ((dlookup ch.queue_readcounts q).getD 0 + 1) }
         (n + 1) hfq hcur2 hdrop1
    show (drainFanoutN (ps.length + 1) fq B ch q).1 = m :: ps ∧ _ ∧ _ ∧ _
    simp only [drainFanoutN, hstep]
    refine ⟨by rw [ih1], ?_, ih3, ?_⟩
    · rw [ih2]
      congr 2
      simp only [List.length_cons]
      omega
    · intro k hk
      obtain ⟨f1, f2⟩ := ih4 k hk
      rw [f1, f2,
          dlookup_dset_ne _ q k _ (Ne.symm hk),
          dlookup_dset_ne _ q k _ (Ne.symm hk)]
      exact ⟨rfl, rfl⟩

/-- C3: binding a fanout queue `q` to exchange `e` while the broadcast
collection holds `n` prior messages for `e` sets `q`'s cursor position and
read count to `n`; dequeues of `q` then return exactly the messages
published to `e` after the bind, in publish order, followed by the empty
signal — never any of the `n` prior messages. -/
theorem c3_fanout_bind_skips_history (fq : List (String × String)) (b : BcastCol)
    (routing : List RoutingDoc) (ch : ChanInst) (e q rk pt : String)
    (ps : List Msg) (hcur : dmem ch.queue_cursors q = false) :
    dlookup (queueBind true fq b routing ch e rk pt q).2.2.queue_cursors q
        = some ⟨e, (b.filter (fun d => d.queue == e)).length⟩ ∧
    dlookup (queueBind true fq b routing ch e rk pt q).2.2.queue_readcounts q
        = some (b.filter (fun d => d.queue == e)).length ∧
    (drainFanoutN ps.length (queueBind true fq b routing ch e rk pt q).1
        (putFanoutAll b e ps)
        (queueBind true fq b routing ch e rk pt q).2.2 q).1 = ps ∧
    (getFanout (queueBind true fq b routing ch e rk pt q).1 (putFanoutAll b e ps)
        (drainFanoutN ps.length (queueBind true fq b routing ch e rk pt q).1
          (putFanoutAll b e ps)
          (queueBind true fq b routing ch e rk pt q).2.2 q).2 q).1 = none := by
  have hproj1 : (queueBind true fq b routing ch e rk pt q).1 = dset fq q e := rfl
  have hproj2 : (queueBind true fq b routing ch e rk pt q).2.2
      = ensureCursor (dset fq q e) b ch q := rfl
  have hfq2 : dlookup (dset fq q e) q = some e := dlookup_dset_same fq q e
  have hcreate := ensureCursor_create (dset fq q e) b ch q e hfq2 hcur
  have hlookc : dlookup (ensureCursor (dset fq q e) b ch q).queue_cursors q
      = some ⟨e, (b.filter (fun d => d.queue == e)).length⟩ := by
    rw [hcreate]
    exact dlookup_dset_same _ q _
  have hlookr : dlookup (ensureCursor (dset fq q e) b ch q).queue_readcounts q
      = some (b.filter (fun d => d.queue == e)).length := by
    rw [hcreate]
    exact dlookup_dset_same _ q _
  have hdrop : ((putFanoutAll b e ps).filter (fun d => d.queue == e)).drop
      ((b.filter (fun d => d.queue == e)).length)
      = ps.map (fun m => (⟨e, dumps m⟩ : BDoc)) := by
    rw [filter_putFanoutAll]
    exact List.drop_left _ _
  obtain ⟨h1, _, h3, _⟩ :=
    drainFanoutN_spec (dset fq q e) (putFanoutAll b e ps) e q ps
      (ensureCursor (dset fq q e) b ch q) _ hfq2 hlookc hdrop
  rw [hproj1, hproj2]
  exact ⟨hlookc, hlookr, h1, h3⟩

/-- Witness for C3 at the spec's example 2: exchange `logs` has two prior
broadcasts; after binding `q1`, publishing "z" and dequeuing, `q1`
receives only "z", then empty. -/
theorem c3_fanout_bind_skips_history_witness :
    dlookup (queueBind true [] [⟨"logs", "x"⟩, ⟨"logs", "y"⟩] [] ⟨[], []⟩
        "logs" "rk" "pt" "q1").2.2.queue_cursors "q1"
      = some ⟨"logs",
          (([⟨"logs", "x"⟩, ⟨"logs", "y"⟩] : BcastCol).filter
            (fun d => d.queue == "logs")).length⟩ ∧
    dlookup (queueBind true [] [⟨"logs", "x"⟩, ⟨"logs", "y"⟩] [] ⟨[], []⟩
        "logs" "rk" "pt" "q1").2.2.queue_readcounts "q1"
      = some (([⟨"logs", "x"⟩, ⟨"logs", "y"⟩] : BcastCol).filter
          (fun d => d.queue == "logs")).length ∧
    (drainFanoutN 1 (queueBind true [] [⟨"logs", "x"⟩, ⟨"logs", "y"⟩] [] ⟨[], []⟩
        "logs" "rk" "pt" "q1").1
        (putFanoutAll [⟨"logs", "x"⟩, ⟨"logs", "y"⟩] "logs" ["z"])
        (queueBind true [] [⟨"logs", "x"⟩, ⟨"logs", "y"⟩] [] ⟨[], []⟩
          "logs" "rk" "pt" "q1").2.2 "q1").1 = ["z"] ∧
    (getFanout (queueBind true [] [⟨"logs", "x"⟩, ⟨"logs", "y"⟩] [] ⟨[], []⟩
        "logs" "rk" "pt" "q1").1
        (putFanoutAll [⟨"logs", "x"⟩, ⟨"logs", "y"⟩] "logs" ["z"])
        (drainFanoutN 1 (queueBind true [] [⟨"logs", "x"⟩, ⟨"logs", "y"⟩] []
            ⟨[], []⟩ "logs" "rk" "pt" "q1").1
          (putFanoutAll [⟨"logs", "x"⟩, ⟨"logs", "y"⟩] "logs" ["z"])
          (queueBind true [] [⟨"logs", "x"⟩, ⟨"logs", "y"⟩] [] ⟨[], []⟩
            "logs" "rk" "pt" "q1").2.2 "q1").2 "q1").1 = none :=
  c3_fanout_bind_skips_history [] [⟨"logs", "x"⟩, ⟨"logs", "y"⟩] [] ⟨[], []⟩
    "logs" "q1" "rk" "pt" ["z"] rfl

/-- C4: two fanout queues `q1 ≠ q2` bound to the same exchange hold
separate cursor state: a dequeue on `q1` changes neither `q2`'s cursor nor
its read count (neither a single dequeue nor a full drain), and after both
binds each queue's drain independently returns every message published
after the binds. -/
theorem c4_fanout_queues_independent
    (fq : List (String × String)) (b : BcastCol) (ch : ChanInst)
    (e q1 q2 : String) (ps : List Msg)
    (fqB : List (String × String)) (chB : ChanInst)
    (hne : q1 ≠ q2)
    (h1 : dmem ch.queue_cursors q1 = false)
    (h2 : dmem ch.queue_cursors q2 = false)
    (hfqB : fqB = dset (dset fq q1 e) q2 e)
    (hchB : chB = ensureCursor fqB b (ensureCursor (dset fq q1 e) b ch q1) q2) :
    (∀ k, k ≠ q1 →
      dlookup (getFanout fqB (putFanoutAll b e ps) chB q1).2.queue_cursors k
          = dlookup chB.queue_cursors k ∧
      dlookup (getFanout fqB (putFanoutAll b e ps) chB q1).2.queue_readcounts k
          = dlookup chB.queue_readcounts k) ∧
    dlookup (drainFanoutN ps.length fqB (putFanoutAll b e ps) chB q1).2.queue_cursors
        q2 = dlookup chB.queue_cursors q2 ∧
    dlookup (drainFanoutN ps.length fqB (putFanoutAll b e ps) chB
        q1).2.queue_readcounts q2 = dlookup chB.queue_readcounts q2 ∧
    (drainFanoutN ps.length fqB (putFanoutAll b e ps) chB q1).1 = ps ∧
    (drainFanoutN ps.length fqB (putFanoutAll b e ps)
        (drainFanoutN ps.length fqB (putFanoutAll b e ps) chB q1).2 q2).1 = ps := by
  subst hfqB
  subst hchB
  have hfqA1 : dlookup (dset fq q1 e) q1 = some e := dlookup_dset_same fq q1 e
  have hA := ensureCursor_create (dset fq q1 e) b ch q1 e hfqA1 h1
  have hfqB1 : dlookup (dset (dset fq q1 e) q2 e) q1 = some e := by
    rw [dlookup_dset_ne _ q2 q1 e (Ne.symm hne)]
    exact hfqA1
  have hfqB2 : dlookup (dset (dset fq q1 e) q2 e) q2 = some e :=
    dlookup_dset_same _ q2 e
  have hmemA : dmem (ensureCursor (dset fq q1 e) b ch q1).queue_cursors q2
      = false := by
    rw [hA]
    show dmem (dset ch.queue_cursors q1 _) q2 = false
    rw [dmem_dset_ne _ q1 q2 _ hne]
    exact h2
  have hB := ensureCursor_create (dset (dset fq q1 e) q2 e) b
    (ensureCursor (dset fq q1 e) b ch q1) q2 e hfqB2 hmemA
  have hcB2 : dlookup (ensureCursor (dset (dset fq q1 e) q2 e) b
      (ensureCursor (dset fq q1 e) b ch q1) q2).queue_cursors q2
      = some ⟨e, (b.filter (fun d => d.queue == e)).length⟩ := by
    rw [hB]
    exact dlookup_dset_same _ q2 _
  have hcB1 : dlookup (ensureCursor (dset (dset fq q1 e) q2 e) b
      (ensureCursor (dset fq q1 e) b ch q1) q2).queue_cursors q1
      = some ⟨e, (b.filter (fun d => d.queue == e)).length⟩ := by
    rw [hB]
    show dlookup (dset (ensureCursor (dset fq q1 e) b ch q1).queue_cursors q2 _) q1
        = _
    rw [dlookup_dset_ne _ q2 q1 _ (Ne.symm hne), hA]
    exact dlookup_dset_same _ q1 _
  have hdrop : ((putFanoutAll b e ps).filter (fun d => d.queue == e)).drop
      ((b.filter (fun d => d.queue == e)).length)
      = ps.map (fun m => (⟨e, dumps m⟩ : BDoc)) := by
    rw [filter_putFanoutAll]
    exact List.drop_left _ _
  obtain ⟨d1, _, _, d4⟩ :=
    drainFanoutN_spec (dset (dset fq q1 e) q2 e) (putFanoutAll b e ps) e q1 ps
      (ensureCursor (dset (dset fq q1 e) q2 e) b
        (ensureCursor (dset fq q1 e) b ch q1) q2)
      ((b.filter (fun d => d.queue == e)).length) hfqB1 hcB1 hdrop
  obtain ⟨fc, fr⟩ := d4 q2 (Ne.symm hne)
  obtain ⟨e1, _, _, _⟩ :=
    drainFanoutN_spec (dset (dset fq q1 e) q2 e) (putFanoutAll b e ps) e q2 ps
      (drainFanoutN ps.length (dset (dset fq q1 e) q2 e) (putFanoutAll b e ps)
        (ensureCursor (dset (dset fq q1 e) q2 e) b
          (ensureCursor (dset fq q1 e) b ch q1) q2) q1).2
      ((b.filter (fun d => d.queue == e)).length) hfqB2
      (by rw [fc]; exact hcB2) hdrop
  exact ⟨fun k hk => getFanout_frame _ _ _ q1 k hk, fc, fr, d1, e1⟩

/-- Witness for C4: queues "a" and "b" bound to exchange "ex" over an
empty broadcast collection, two messages published; draining "a" leaves
"b"'s state untouched and both drains return both messages. -/
theorem c4_fanout_queues_independent_witness :
    (drainFanoutN 2 (dset (dset [] "a" "ex") "b" "ex")
        (putFanoutAll [] "ex" ["m1", "m2"])
        (ensureCursor (dset (dset [] "a" "ex") "b" "ex") []
          (ensureCursor (dset [] "a" "ex") [] ⟨[], []⟩ "a") "b") "a").1
      = ["m1", "m2"] ∧
    (drainFanoutN 2 (dset (dset [] "a" "ex") "b" "ex")
        (putFanoutAll [] "ex" ["m1", "m2"])
        (drainFanoutN 2 (dset (dset [] "a" "ex") "b" "ex")
          (putFanoutAll [] "ex" ["m1", "m2"])
          (ensureCursor (dset (dset [] "a" "ex") "b" "ex") []
            (ensureCursor (dset [] "a" "ex") [] ⟨[], []⟩ "a") "b") "a").2 "b").1
      = ["m1", "m2"] := by
  have h := c4_fanout_queues_independent [] [] ⟨[], []⟩ "ex" "a" "b" ["m1", "m2"]
    (dset (dset [] "a" "ex") "b" "ex")
    (ensureCursor (dset (dset [] "a" "ex") "b" "ex") []
      (ensureCursor (dset [] "a" "ex") [] ⟨[], []⟩ "a") "b")
    (by decide) rfl rfl rfl rfl
  exact ⟨h.2.2.2.1, h.2.2.2.2⟩

/-- Supporting fact for C2's point-to-point half: purge returns the prior
size and leaves the queue with size zero. -/
lemma pPurge_point_to_point (c : MessagesCol) (q : String) :
    (pPurge c q).1 = pSize c q ∧ pSize (pPurge c q).2 q = 0 := by
  refine ⟨rfl, ?_⟩
  simp [pSize, pPurge, List.filter_filter]

/-- C2 fails on fanout queues: with queue "q" bound to exchange "e" over an
empty broadcast collection and one message published after the bind,
`_purge` returns the prior size 1 but repositions only the cursor, never
`_queue_readcounts`, so `_size` immediately after the purge is still 1,
not 0. -/
theorem c2_fanout_purge_leaves_size :
    (purgeFanout [("q", "e")] (putFanout [] "e" "m")
        (ensureCursor [("q", "e")] [] ⟨[], []⟩ "q") "q").1 = 1 ∧
    (sizeFanout [("q", "e")] (putFanout [] "e" "m")
        (purgeFanout [("q", "e")] (putFanout [] "e" "m")
          (ensureCursor [("q", "e")] [] ⟨[], []⟩ "q") "q").2 "q").1 = 1 := by
  constructor <;> rfl

/-- Substring test, as python's `in` on strings:
`'No matching object found' in exc.args[0]`. -/
def containsSub (pat s : String) : Bool :=
  decide (pat.data <:+: s.data)

/-- Outcome of the store's `findandmodify` command as the channel receives
it: either an OperationFailure carrying an error message, or a reply whose
`value` field holds the removed document or null. -/
inductive FamResult where
  | failure (errmsg : String)
  | success (value : Option QDoc)
  deriving DecidableEq

/-- Outcome of Channel._get as seen by the caller. -/
inductive GetOutcome where
  | empty
  | delivered (m : Msg)
  | opError (errmsg : String)
  deriving DecidableEq

/-- Channel._get's error handling on the point-to-point branch: an
OperationFailure whose message contains `No matching object found` is
turned into Empty; any other OperationFailure is re-raised unchanged; a
reply with a null `value` (mongo 2.0+) is turned into Empty; otherwise the
payload is decoded and delivered. -/
def pGetOutcome (r : FamResult) : GetOutcome :=
  match r with
  | .failure errmsg =>
    if containsSub "No matching object found" errmsg then .empty
    else .opError errmsg
  | .success none => .empty
  | .success (some d) => .delivered (loads d.payload)

/-- C6: dequeue on an empty point-to-point queue signals the single empty
outcome for both store forms of the no-matching-object condition (the
`No matching object found` OperationFailure and the null `value` reply);
a fanout dequeue on an exhausted cursor likewise signals empty and leaves
the channel state unchanged; every other store operation failure is
propagated unchanged; and on the integrated store model a dequeue of a
queue with zero matching documents returns empty without touching the
collection. -/
theorem c6_empty_never_error :
    (∀ errmsg, containsSub "No matching object found" errmsg = true →
      pGetOutcome (.failure errmsg) = .empty) ∧
    pGetOutcome (.success none) = .empty ∧
    (∀ errmsg, containsSub "No matching object found" errmsg = false →
      pGetOutcome (.failure errmsg) = .opError errmsg) ∧
    (∀ d, pGetOutcome (.success (some d)) = .delivered (loads d.payload)) ∧
    (∀ fq b ch q e cur, dlookup fq q = some e →
      dlookup ch.queue_cursors q = some cur →
      (b.filter (fun d => d.queue == cur.queue)).length ≤ cur.pos →
      (getFanout fq b ch q).1 = none ∧ (getFanout fq b ch q).2 = ch) ∧
    (∀ c q, (∀ d ∈ c.docs, d.queue ≠ q) → pGet c q = (none, c)) := by
  refine ⟨?_, rfl, ?_, fun d => rfl, ?_, fun c q h => pGet_empty c q h⟩
  · intro errmsg h
    simp [pGetOutcome, h]
  · intro errmsg h
    simp [pGetOutcome, h]
  · intro fq b ch q e cur hfq hcur hpos
    have hmem : dmem ch.queue_cursors q = true := by simp [dmem, hcur]
    have hens := ensureCursor_of_mem fq b ch q e hfq hmem
    have hnone : (b.filter (fun d => d.queue == cur.queue))[cur.pos]? = none :=
      List.getElem?_eq_none hpos
    constructor <;>
      simp [getFanout, hens, hcur, cursor_next_none cur b hnone]

/-- Witness for C6: the exact failure message maps to empty, a different
failure propagates unchanged, and a null value maps to empty. -/
theorem c6_empty_never_error_witness :
    pGetOutcome (.failure "No matching object found") = .empty ∧
    pGetOutcome (.failure "duplicate key error") = .opError "duplicate key error" ∧
    pGetOutcome (.success none) = .empty :=
  ⟨c6_empty_never_error.1 "No matching object found" (by decide),
   c6_empty_never_error.2.2.1 "duplicate key error" (by decide),
   c6_empty_never_error.2.1⟩

/-- C5: upserting the identical `(exchange, routing_key, pattern, queue)`
tuple twice leaves exactly one matching routing row (given the collection
held at most one beforehand, the invariant the upsert maintains); the
second bind changes nothing; `get_table` contains the bound triple and is
the deduplicated union of the channel-local table and the durable rows. -/
theorem c5_bind_idempotent (routing : List RoutingDoc)
    (localRoutes : List (String × String × String)) (e rk pt q : String)
    (hdup : (routing.filter
      (fun x => decide (x = (⟨e, q, rk, pt⟩ : RoutingDoc)))).length ≤ 1) :
    ((routingUpsert (routingUpsert routing ⟨e, q, rk, pt⟩) ⟨e, q, rk, pt⟩).filter
        (fun x => decide (x = (⟨e, q, rk, pt⟩ : RoutingDoc)))).length = 1 ∧
    routingUpsert (routingUpsert routing ⟨e, q, rk, pt⟩) ⟨e, q, rk, pt⟩
        = routingUpsert routing ⟨e, q, rk, pt⟩ ∧
    (rk, pt, q) ∈ getTable localRoutes
        (routingUpsert (routingUpsert routing ⟨e, q, rk, pt⟩) ⟨e, q, rk, pt⟩) e ∧
    (∀ x r2, x ∈ getTable localRoutes r2 e ↔
      x ∈ localRoutes ∨ ∃ rd ∈ r2, rd.exchange = e ∧
        (rd.routing_key, rd.pattern, rd.queue) = x) := by
  have hmem1 : (⟨e, q, rk, pt⟩ : RoutingDoc) ∈ routingUpsert routing ⟨e, q, rk, pt⟩ := by
    unfold routingUpsert
    by_cases h : (⟨e, q, rk, pt⟩ : RoutingDoc) ∈ routing
    · rw [if_pos h]; exact h
    · rw [if_neg h]; simp
  have hsecond : routingUpsert (routingUpsert routing ⟨e, q, rk, pt⟩) ⟨e, q, rk, pt⟩
      = routingUpsert routing ⟨e, q, rk, pt⟩ := by
    show (if (⟨e, q, rk, pt⟩ : RoutingDoc) ∈ routingUpsert routing ⟨e, q, rk, pt⟩
        then routingUpsert routing ⟨e, q, rk, pt⟩
        else routingUpsert routing ⟨e, q, rk, pt⟩ ++ [⟨e, q, rk, pt⟩]) = _
    rw [if_pos hmem1]
  have htable : ∀ x r2, x ∈ getTable localRoutes r2 e ↔
      x ∈ localRoutes ∨ ∃ rd ∈ r2, rd.exchange = e ∧
        (rd.routing_key, rd.pattern, rd.queue) = x := by
    intro x r2
    simp [getTable, List.mem_filter]
    constructor
    · rintro (h | ⟨rd, ⟨hrd, hex⟩, rfl⟩)
      · exact Or.inl h
      · exact Or.inr ⟨rd, hrd, hex, rfl⟩
    · rintro (h | ⟨rd, hrd, hex, rfl⟩)
      · exact Or.inl h
      · exact Or.inr ⟨rd, ⟨hrd, hex⟩, rfl⟩
  have hcount : ((routingUpsert routing ⟨e, q, rk, pt⟩).filter
      (fun x => decide (x = (⟨e, q, rk, pt⟩ : RoutingDoc)))).length = 1 := by
    unfold routingUpsert
    by_cases h : (⟨e, q, rk, pt⟩ : RoutingDoc) ∈ routing
    · rw [if_pos h]
      have hmemf : (⟨e, q, rk, pt⟩ : RoutingDoc) ∈ routing.filter
          (fun x => decide (x = (⟨e, q, rk, pt⟩ : RoutingDoc))) := by
        simp [List.mem_filter, h]
      have hge : 1 ≤ (routing.filter
          (fun x => decide (x = (⟨e, q, rk, pt⟩ : RoutingDoc)))).length :=
        List.length_pos.mpr (List.ne_nil_of_mem hmemf)
      omega
    · rw [if_neg h]
      rw [List.filter_append]
      have h0 : routing.filter
          (fun x => decide (x = (⟨e, q, rk, pt⟩ : RoutingDoc))) = [] := by
        apply List.filter_eq_nil_iff.mpr
        intro a ha
        simp only [decide_eq_true_eq]
        intro hcontra
        exact h (hcontra ▸ ha)
      rw [h0]
      simp
  refine ⟨by rw [hsecond]; exact hcount, hsecond, ?_, htable⟩
  apply (htable (rk, pt, q) _).mpr
  exact Or.inr ⟨⟨e, q, rk, pt⟩, (by rw [hsecond]; exact hmem1), rfl, rfl⟩

/-- Witness for C5 at the spec's example 4: binding
`(exchange=ev, key=k, pattern=p, queue=qq)` twice on an empty routing
collection leaves exactly one row and `get_table` contains the triple. -/
theorem c5_bind_idempotent_witness :
    ((routingUpsert (routingUpsert [] ⟨"ev", "qq", "k", "p"⟩)
        ⟨"ev", "qq", "k", "p"⟩).filter
        (fun x => decide (x = (⟨"ev", "qq", "k", "p"⟩ : RoutingDoc)))).length = 1 ∧
    (("k", "p", "qq") ∈ getTable []
        (routingUpsert (routingUpsert [] ⟨"ev", "qq", "k", "p"⟩)
          ⟨"ev", "qq", "k", "p"⟩) "ev") := by
  have h := c5_bind_idempotent [] [] "ev" "k" "p" "qq" (by simp)
  exact ⟨h.1, h.2.2.1⟩

/-- A system with two Channel instances.  In the source, `_fanout_queues`
is a class attribute of Channel — one dict object shared by every
instance, because `self._fanout_queues[queue] = exchange` and
`self._fanout_queues.pop(queue, None)` mutate the class-level dict in
place — while `_queue_cursors` and `_queue_readcounts` are assigned fresh
dicts in `__init__` and are therefore per instance. -/
structure TwoChannels where
  fanout_queues : List (String × String)
  ch1 : ChanInst
  ch2 : ChanInst
  deriving DecidableEq

/-- Channel._queue_bind of a fanout exchange executed on channel 1:
updates the shared class-level `_fanout_queues` and channel 1's own
cursors; channel 2's instance dicts are untouched. -/
def bindFanoutOnCh1 (w : TwoChannels) (b : BcastCol) (routing : List RoutingDoc)
    (exchange routing_key pat queue : String) : TwoChannels × List RoutingDoc :=
  let r := queueBind true w.fanout_queues b routing w.ch1 exchange routing_key pat queue
  (⟨r.1, r.2.2, w.ch2⟩, r.2.1)

/-- The membership test `queue in self._fanout_queues` as evaluated by
channel 2 (it reads the same class-level dict). -/
def ch2SeesFanout (w : TwoChannels) (queue : String) : Bool :=
  dmem w.fanout_queues queue

/-- C8 fails: the fanout-queue registry is a class attribute, so binding a
fanout queue on channel 1 changes the fanout-queue set channel 2 observes.
Evaluated at the failing input: starting from two fresh channels, before
the bind channel 2 does not see queue "q" as fanout; after channel 1 binds
"q" to exchange "e", channel 2 does. -/
theorem c8_fanout_registry_shared :
    ch2SeesFanout ⟨[], ⟨[], []⟩, ⟨[], []⟩⟩ "q" = false ∧
    ch2SeesFanout
      (bindFanoutOnCh1 ⟨[], ⟨[], []⟩, ⟨[], []⟩⟩ [] [] "e" "rk" "pt" "q").1 "q"
      = true := by
  constructor <;> rfl

/-- Full channel-visible state for the frame claim C10: the class-level
fanout registry, the per-instance cursor state, and the three store
collections. -/
structure ChannelState where
  fanout_queues : List (String × String)
  inst : ChanInst
  messages : MessagesCol
  bcast : BcastCol
  routing : List RoutingDoc
  deriving DecidableEq

set_option linter.unusedVariables false in
/-- Channel._new_queue: the body is `pass` — no store operation, no state
change. -/
def newQueue (s : ChannelState) (queue : String) : ChannelState := s

/-- C10: declaring a new queue is a no-op: it performs no store operation
and leaves the fanout registry, cursors, read counts and all collections
unchanged. -/
theorem c10_new_queue_noop (s : ChannelState) (queue : String) :
    newQueue s queue = s := rfl

/-- Configuration consumed by Channel._open, after the external steps
(URI assembly, opening the pymongo Connection, `server_info()`): the
server version string's first two dot components parsed to integers, and
`transport_options.get('capped_queue_size')`. -/
structure ClientConfig where
  versionMajor : Nat
  versionMinor : Nat
  capped_queue_size : Option Nat
  deriving DecidableEq

/-- Schema-relevant state of the database the bootstrap touches: the
collection name list (`collection_names()`), the capped collections
created with their byte sizes, and the ensured indexes with their ordered
key lists. -/
structure Database where
  collections : List String
  cappedSizes : List (String × Nat)
  indexes : List (String × List (String × Int))
  deriving DecidableEq

/-- pymongo `ensure_index`: idempotent — record the index only if it is
not already present. -/
def ensureIndex (db : Database) (col : String) (keys : List (String × Int)) :
    Database :=
  if (col, keys) ∈ db.indexes then db
  else { db with indexes := db.indexes ++ [(col, keys)] }

/-- pymongo `create_collection(name, size=n, capped=True)`. -/
def createCollection (db : Database) (nm : String) (size : Nat) : Database :=
  { db with collections := db.collections ++ [nm],
            cappedSizes := db.cappedSizes ++ [(nm, size)] }

/-- The python expression
`client.transport_options.get('capped_queue_size') or 100000`:
a missing or falsy (zero) configured value falls back to 100000. -/
def cappedSizeOf (o : Option Nat) : Nat :=
  match o with
  | some n => if n == 0 then 100000 else n
  | none => 100000

/-- Errors Channel._open can raise. -/
inductive OpenErr where
  | versionUnsupported
  deriving DecidableEq

/-- Channel._open: after connecting, compare the server's (major, minor)
version tuple against (1, 3) — python tuple order, i.e. lexicographic —
and raise before touching the schema if it is lower.  Otherwise ensure the
`(queue, _id)` index on `messages`, create the capped `messages.broadcast`
collection only if absent with the configured-or-default byte size, ensure
the `(queue)` index on `messages.broadcast` and the `(queue, exchange)`
index on `messages.routing`, and return the database handle. -/
def channelOpen (cfg : ClientConfig) (db : Database) : Database × Option OpenErr :=
  if cfg.versionMajor < 1 ∨ (cfg.versionMajor = 1 ∧ cfg.versionMinor < 3) then
    (db, some .versionUnsupported)
  else
    let db1 := ensureIndex db "messages" [("queue", 1), ("_id", 1)]
    let db2 :=
      if "messages.broadcast" ∈ db1.collections then db1
      else createCollection db1 "messages.broadcast"
        (cappedSizeOf cfg.capped_queue_size)
    let db3 := ensureIndex db2 "messages.broadcast" [("queue", 1)]
    let db4 := ensureIndex db3 "messages.routing" [("queue", 1), ("exchange", 1)]
    (db4, none)

/-- The Channel.client property: `_client` starts as None; the first read
runs `_open` and caches the handle on the instance; later reads return the
cached handle without touching the store.  When `_open` raises, nothing is
cached. -/
def clientGet (cfg : ClientConfig) (cache : Option Database) (db : Database) :
    Option Database × Database :=
  match cache with
  | some h => (some h, db)
  | none =>
    let r := channelOpen cfg db
    match r.2 with
    | some _ => (none, r.1)
    | none => (some r.1, r.1)

lemma ensureIndex_collections (db : Database) (col : String)
    (keys : List (String × Int)) :
    (ensureIndex db col keys).collections = db.collections ∧
    (ensureIndex db col keys).cappedSizes = db.cappedSizes := by
  unfold ensureIndex
  by_cases h : (col, keys) ∈ db.indexes
  · rw [if_pos h]; exact ⟨rfl, rfl⟩
  · rw [if_neg h]; exact ⟨rfl, rfl⟩

lemma ensureIndex_mem (db : Database) (col : String) (keys : List (String × Int)) :
    (col, keys) ∈ (ensureIndex db col keys).indexes := by
  unfold ensureIndex
  by_cases h : (col, keys) ∈ db.indexes
  · rw [if_pos h]; exact h
  · rw [if_neg h]; simp

lemma ensureIndex_mono (db : Database) (col : String) (keys : List (String × Int))
    (x : String × List (String × Int)) (h : x ∈ db.indexes) :
    x ∈ (ensureIndex db col keys).indexes := by
  unfold ensureIndex
  by_cases hm : (col, keys) ∈ db.indexes
  · rw [if_pos hm]; exact h
  · rw [if_neg hm]; exact List.mem_append_left _ h

/-- C7: a server version below (1, 3) makes bootstrap fail with the
compatibility error before any collection or index is touched, leaving the
schema unchanged; otherwise bootstrap succeeds, ensures the point-to-point
`(queue, _id)` index, creates the capped broadcast collection only when
absent — with the configured-or-default 100000-byte size — leaves the
collections untouched when it is already present, and the client property
runs the bootstrap once and serves the cached handle thereafter. -/
theorem c7_bootstrap_version_gate (cfg : ClientConfig) (db : Database) :
    (cfg.versionMajor < 1 ∨ (cfg.versionMajor = 1 ∧ cfg.versionMinor < 3) →
      channelOpen cfg db = (db, some OpenErr.versionUnsupported)) ∧
    (¬ (cfg.versionMajor < 1 ∨ (cfg.versionMajor = 1 ∧ cfg.versionMinor < 3)) →
      (channelOpen cfg db).2 = none ∧
      ("messages", [("queue", 1), ("_id", 1)]) ∈ (channelOpen cfg db).1.indexes ∧
      "messages.broadcast" ∈ (channelOpen cfg db).1.collections ∧
      ("messages.broadcast" ∉ db.collections →
        ("messages.broadcast", cappedSizeOf cfg.capped_queue_size)
          ∈ (channelOpen cfg db).1.cappedSizes) ∧
      ("messages.broadcast" ∈ db.collections →
        (channelOpen cfg db).1.collections = db.collections ∧
        (channelOpen cfg db).1.cappedSizes = db.cappedSizes) ∧
      clientGet cfg none db = (some (channelOpen cfg db).1, (channelOpen cfg db).1) ∧
      clientGet cfg (some (channelOpen cfg db).1) (channelOpen cfg db).1
        = (some (channelOpen cfg db).1, (channelOpen cfg db).1)) := by
  constructor
  · intro h
    simp only [channelOpen, if_pos h]
  · intro h
    have hopen : channelOpen cfg db =
        (ensureIndex
          (ensureIndex
            (if "messages.broadcast" ∈
                (ensureIndex db "messages" [("queue", 1), ("_id", 1)]).collections
             then ensureIndex db "messages" [("queue", 1), ("_id", 1)]
             else createCollection
               (ensureIndex db "messages" [("queue", 1), ("_id", 1)])
               "messages.broadcast" (cappedSizeOf cfg.capped_queue_size))
            "messages.broadcast" [("queue", 1)])
          "messages.routing" [("queue", 1), ("exchange", 1)], none) := by
      simp only [channelOpen, if_neg h]
    have hcoll1 := ensureIndex_collections db "messages" [("queue", 1), ("_id", 1)]
    refine ⟨by rw [hopen], ?_, ?_, ?_, ?_, ?_, ?_⟩
    · rw [hopen]
      apply ensureIndex_mono
      apply ensureIndex_mono
      by_cases hb : "messages.broadcast" ∈
          (ensureIndex db "messages" [("queue", 1), ("_id", 1)]).collections
      · rw [if_pos hb]; exact ensureIndex_mem db "messages" _
      · rw [if_neg hb]
        show ("messages", [("queue", 1), ("_id", 1)]) ∈
          (ensureIndex db "messages" [("queue", 1), ("_id", 1)]).indexes
        exact ensureIndex_mem db "messages" _
    · rw [hopen]
      show "messages.broadcast" ∈ (ensureIndex (ensureIndex _ _ _) _ _).collections
      rw [(ensureIndex_collections _ _ _).1, (ensureIndex_collections _ _ _).1]
      by_cases hb : "messages.broadcast" ∈
          (ensureIndex db "messages" [("queue", 1), ("_id", 1)]).collections
      · rw [if_pos hb]; exact hb
      · rw [if_neg hb]
        show "messages.broadcast" ∈
          (ensureIndex db "messages" [("queue", 1), ("_id", 1)]).collections
            ++ ["messages.broadcast"]
        simp
    · intro habs
      rw [hopen]
      show ("messages.broadcast", cappedSizeOf cfg.capped_queue_size) ∈
        (ensureIndex (ensureIndex _ _ _) _ _).cappedSizes
      rw [(ensureIndex_collections _ _ _).2, (ensureIndex_collections _ _ _).2]
      have hb : "messages.broadcast" ∉
          (ensureIndex db "messages" [("queue", 1), ("_id", 1)]).collections := by
        rw [hcoll1.1]; exact habs
      rw [if_neg hb]
      show ("messages.broadcast", cappedSizeOf cfg.capped_queue_size) ∈
        (ensureIndex db "messages" [("queue", 1), ("_id", 1)]).cappedSizes
          ++ [("messages.broadcast", cappedSizeOf cfg.capped_queue_size)]
      simp
    · intro hpres
      rw [hopen]
      have hb : "messages.broadcast" ∈
          (ensureIndex db "messages" [("queue", 1), ("_id", 1)]).collections := by
        rw [hcoll1.1]; exact hpres
      constructor
      · show (ensureIndex (ensureIndex _ _ _) _ _).collections = db.collections
        rw [(ensureIndex_collections _ _ _).1, (ensureIndex_collections _ _ _).1,
            if_pos hb, hcoll1.1]
      · show (ensureIndex (ensureIndex _ _ _) _ _).cappedSizes = db.cappedSizes
        rw [(ensureIndex_collections _ _ _).2, (ensureIndex_collections _ _ _).2,
            if_pos hb, hcoll1.2]
    · show clientGet cfg none db = _
      unfold clientGet
      have h2 : (channelOpen cfg db).2 = none := by rw [hopen]
      cases hr : channelOpen cfg db with
      | mk d o =>
        have : o = none := by rw [hr] at h2; exact h2
        subst this
        simp [hr]
    · rfl

/-- Witness for C7: a 1.2 server is refused with the schema untouched; a
2.0 server bootstraps with no error. -/
theorem c7_bootstrap_version_gate_witness :
    channelOpen ⟨1, 2, none⟩ ⟨[], [], []⟩
      = (⟨[], [], []⟩, some OpenErr.versionUnsupported) ∧
    (channelOpen ⟨2, 0, some 5000⟩ ⟨[], [], []⟩).2 = none :=
  ⟨(c7_bootstrap_version_gate ⟨1, 2, none⟩ ⟨[], [], []⟩).1 (by decide),
   ((c7_bootstrap_version_gate ⟨2, 0, some 5000⟩ ⟨[], [], []⟩).2 (by decide)).1⟩

/-- C9 as stated is false: bootstrap on a fresh database with a supported
server version ensures the routing index with key order (queue, exchange);
no (exchange, queue) index is ever created. -/
theorem c9_routing_index_counterexample :
    ("messages.routing", [("exchange", (1 : Int)), ("queue", 1)]) ∉
      (channelOpen ⟨2, 0, none⟩ ⟨[], [], []⟩).1.indexes := by
  decide

/-- C9 amended: bootstrap with a supported server version ensures an index
on the routing collection keyed by (queue, exchange) — in that key order,
not (exchange, queue) — and an index on the broadcast collection keyed by
queue. -/
theorem c9_bootstrap_indexes (cfg : ClientConfig) (db : Database)
    (h : ¬ (cfg.versionMajor < 1 ∨ (cfg.versionMajor = 1 ∧ cfg.versionMinor < 3))) :
    ("messages.routing", [("queue", (1 : Int)), ("exchange", 1)])
        ∈ (channelOpen cfg db).1.indexes ∧
    ("messages.broadcast", [("queue", (1 : Int))])
        ∈ (channelOpen cfg db).1.indexes := by
  simp only [channelOpen, if_neg h]
  exact ⟨ensureIndex_mem _ _ _, ensureIndex_mono _ _ _ _ (ensureIndex_mem _ _ _)⟩

/-- Witness for C9's amended statement on a fresh database and a 2.0
server. -/
theorem c9_bootstrap_indexes_witness :
    ("messages.routing", [("queue", (1 : Int)), ("exchange", 1)])
        ∈ (channelOpen ⟨2, 0, none⟩ ⟨[], [], []⟩).1.indexes ∧
    ("messages.broadcast", [("queue", (1 : Int))])
        ∈ (channelOpen ⟨2, 0, none⟩ ⟨[], [], []⟩).1.indexes :=
  c9_bootstrap_indexes ⟨2, 0, none⟩ ⟨[], [], []⟩ (by decide)

end Mongodb
